import Mathlib

/-!
Verification of the `bel` expression-language engine (`src/bel` in the
repository) against its natural-language specification.

The development shallowly embeds the Rust source:

* `F64` abstracts IEEE-754 doubles: `NaN` is represented explicitly and all
  non-NaN doubles (a totally ordered set with decidable equality) are
  abstracted as rationals.  Rounding in casts and float arithmetic is
  abstracted as exact; no settled claim depends on a rounded float result.
* Machine integers (`i64`, `usize`) are `Int`/`Nat` with explicit range
  checks and wrap-arounds, following the Rust documented semantics of
  `checked_add`, `checked_div`, `as usize`, etc.
* `HashMap` values are association lists without duplicate keys; hash-map
  iteration order (which is unspecified in Rust) becomes list order.
* Rust `panic!` / `todo!` / `unreachable!` (process aborts) are the explicit
  evaluator outcome `Outcome.panic`; arithmetic overflow of an *unchecked*
  Rust operation is modelled as the debug-profile behaviour (a panic).
* Recursion in the evaluator is bounded by explicit fuel; the Rust evaluator
  only ever recurses into strict subexpressions, and every theorem states the
  fuel it needs.  `Outcome.outOfFuel` never occurs at sufficient fuel.
* The evaluator is studied over a context whose function registry is empty
  (`Context::empty()`); every operator of the claims is dispatched inline by
  `Value::resolve` itself, and registry lookup of an unknown name yields
  `UndeclaredReference`, exactly as in the source.
-/

namespace Bel

/-- Abstraction of Rust `f64`: `nan` is IEEE NaN, `num q` is any non-NaN
double, represented exactly.  (`±0` are identified, as IEEE `==` does;
infinities and rounding are abstracted away — no settled claim depends on
them.) -/
inductive F64 where
  | nan
  | num (q : Rat)
deriving Repr, DecidableEq

/-- Models IEEE `f64 == f64` (Rust `PartialEq for f64`): NaN is not equal to
anything, including itself. -/
def f64Eq : F64 → F64 → Bool
  | .num a, .num b => decide (a = b)
  | _, _ => false

/-- Total comparison of rationals, used to model the (total) ordering of
non-NaN doubles. -/
def ratCmp (a b : Rat) : Ordering :=
  if a < b then .lt else if b < a then .gt else .eq

/-- Models Rust `f64::partial_cmp`: `None` iff an operand is NaN. -/
def f64Cmp : F64 → F64 → Option Ordering
  | .num a, .num b => Option.some (ratCmp a b)
  | _, _ => Option.none

/-- Models `-f` on `f64` (never fails). -/
def f64Neg : F64 → F64
  | .num a => .num (-a)
  | .nan => .nan

/-- Models `f64 + f64` (exact on the rational representatives; IEEE rounding
and overflow-to-infinity abstracted — no settled claim reads this result). -/
def f64Add : F64 → F64 → F64
  | .num a, .num b => .num (a + b)
  | _, _ => .nan

/-- Models `f64 - f64` (same abstraction as `f64Add`). -/
def f64Sub : F64 → F64 → F64
  | .num a, .num b => .num (a - b)
  | _, _ => .nan

/-- Models `f64 * f64` (same abstraction as `f64Add`). -/
def f64Mul : F64 → F64 → F64
  | .num a, .num b => .num (a * b)
  | _, _ => .nan

/-- Models `f64 / f64`.  Division by zero yields a non-finite IEEE result
(`±∞` or NaN); the abstraction collapses every non-finite result to `nan`.
No settled claim reads a float-division result. -/
def f64Div : F64 → F64 → F64
  | .num a, .num b => if b = 0 then .nan else .num (a / b)
  | _, _ => .nan

/-- Models the Rust cast `i as f64` (exact for `|i| ≤ 2^53`; rounding beyond
that is abstracted as exact). -/
def intAsF64 (i : Int) : F64 := .num (i : Rat)

/-- The `i64` range, `i64::MIN`. -/
def i64Min : Int := -(2 ^ 63)

/-- The `i64` range, `i64::MAX`. -/
def i64Max : Int := 2 ^ 63 - 1

/-- Whether a mathematical integer is representable as an `i64`. -/
def i64Fits (x : Int) : Bool := decide (i64Min ≤ x) && decide (x ≤ i64Max)

/-- Models `i64::checked_add`: `None` exactly when the mathematical sum
overflows. -/
def checkedAdd (a b : Int) : Option Int :=
  if i64Fits (a + b) then Option.some (a + b) else Option.none

/-- Models `i64::checked_sub`. -/
def checkedSub (a b : Int) : Option Int :=
  if i64Fits (a - b) then Option.some (a - b) else Option.none

/-- Models `i64::checked_mul`. -/
def checkedMul (a b : Int) : Option Int :=
  if i64Fits (a * b) then Option.some (a * b) else Option.none

/-- Models `i64::checked_div`: per the Rust documentation, `None` if
`rhs == 0` or the division overflows (`MIN / -1`); otherwise the quotient
truncated toward zero (`Int.tdiv`). -/
def checkedDiv (a b : Int) : Option Int :=
  if b = 0 then Option.none
  else if a = i64Min ∧ b = -1 then Option.none
  else Option.some (Int.tdiv a b)

/-- Models `i64::checked_rem`: per the Rust documentation, `None` if
`rhs == 0` or the corresponding division overflows (`MIN % -1`), even though
the mathematical remainder of that edge case would be `0`; otherwise the
remainder with the sign of the dividend (`Int.tmod`). -/
def checkedRem (a b : Int) : Option Int :=
  if b = 0 then Option.none
  else if a = i64Min ∧ b = -1 then Option.none
  else Option.some (Int.tmod a b)

/-- Models the Rust cast `i as usize` for `i : i64` on a 64-bit target:
reduction modulo `2^64` (negative values wrap around). -/
def usizeOfI64 (i : Int) : Nat := (i % (2 : Int) ^ 64).toNat

/-- Models `Key` (`objects.rs`): the subset of values usable as map keys. -/
inductive Key where
  | int (v : Int)
  | bool (v : Bool)
  | string (v : String)
deriving Repr, DecidableEq

/-- Models `Display for Key` (`objects.rs`): the stringification used by the
`Select { test: true }` presence check. -/
def keyToString : Key → String
  | .int v => toString v
  | .bool v => if v then ("true") else ("false")
  | .string v => v

/-- Models `Value` (`objects.rs`).  `Map` is its inner association list (no
duplicate keys in any value actually built by the evaluator); the
feature-gated variants (`Duration`, `Timestamp`, `Regex`, `Ip`) are omitted:
the claims target the core build without the `time`/`regex`/`ip` features. -/
inductive Value where
  | list (xs : List Value)
  | map (entries : List (Key × Value))
  | function (name : String) (receiver : Option Value)
  | int (i : Int)
  | float (f : F64)
  | string (s : String)
  | bytes (bs : List Nat)
  | bool (b : Bool)
  | null
deriving Repr

/-- Models `ValueType` (`objects.rs`). -/
inductive ValueType where
  | list | map | function | int | float | string | bytes | bool | null
deriving Repr, DecidableEq

/-- Models `Value::type_of`. -/
def typeOf : Value → ValueType
  | .list _ => .list
  | .map _ => .map
  | .function _ _ => .function
  | .int _ => .int
  | .float _ => .float
  | .string _ => .string
  | .bytes _ => .bytes
  | .bool _ => .bool
  | .null => .null

/-- Models `HashMap::get` on the association-list representation (first — and
in a well-formed map, only — entry with the given key). -/
def entLookup (k : Key) : List (Key × Value) → Option Value
  | [] => Option.none
  | e :: rest => if e.1 = k then Option.some e.2 else entLookup k rest

mutual

/-- Models `PartialEq for Value` (`objects.rs`): structural within a variant,
`Int`/`Float` cross-compared through the `as f64` cast, every other
cross-variant pair unequal.  Lists compare elementwise (`Vec PartialEq`),
maps compare as `HashMap PartialEq` (same size and every left entry matched
by key in the right map). -/
def valueEq : Value → Value → Bool
  | .map a, .map b => decide (a.length = b.length) && entriesSub a b
  | .list a, .list b => listEq a b
  | .function a1 a2, .function b1 b2 => (a1 == b1) && optValueEq a2 b2
  | .int a, .int b => a == b
  | .float a, .float b => f64Eq a b
  | .string a, .string b => a == b
  | .bytes a, .bytes b => a == b
  | .bool a, .bool b => a == b
  | .null, .null => true
  | .int a, .float b => f64Eq (intAsF64 a) b
  | .float a, .int b => f64Eq a (intAsF64 b)
  | _, _ => false
termination_by structural x => x

/-- Elementwise list equality (`Vec<Value> PartialEq`). -/
def listEq : List Value → List Value → Bool
  | [], [] => true
  | x :: xs, y :: ys => valueEq x y && listEq xs ys
  | _, _ => false
termination_by structural x => x

/-- One inclusion of `HashMap PartialEq`: every entry of the first list is
matched, by key, in the second. -/
def entriesSub : List (Key × Value) → List (Key × Value) → Bool
  | [], _ => true
  | (k, v) :: rest, ys =>
    (match entLookup k ys with
     | Option.some w => valueEq v w
     | Option.none => false)
    && entriesSub rest ys
termination_by structural x => x

/-- `Option<Box<Value>> PartialEq` (the `Function` receiver slot). -/
def optValueEq : Option Value → Option Value → Bool
  | Option.none, Option.none => true
  | Option.some a, Option.some b => valueEq a b
  | _, _ => false
termination_by structural x => x

end

/-- Total comparison of `Int` (models `i64 cmp`). -/
def intCmp (a b : Int) : Ordering :=
  if a < b then .lt else if b < a then .gt else .eq

/-- Lexicographic comparison of character lists (models Rust `String Ord`;
byte order and Unicode-scalar order agree on ASCII, and no settled claim
compares non-ASCII strings). -/
def charListCmp : List Char → List Char → Ordering
  | [], [] => .eq
  | [], _ :: _ => .lt
  | _ :: _, [] => .gt
  | a :: as_, b :: bs =>
    if a.toNat < b.toNat then .lt
    else if b.toNat < a.toNat then .gt
    else charListCmp as_ bs

/-- Models `PartialOrd for Value::partial_cmp` (`objects.rs`): total within
`Int`, `Float` (NaN aside), `String`, `Bool`, `Null`; `Int`/`Float` pairs
compared through the `as f64` cast; absent for every other pair (including
`List`, `Map`, `Bytes` and `Function` against themselves). -/
def valueCmp : Value → Value → Option Ordering
  | .int a, .int b => Option.some (intCmp a b)
  | .float a, .float b => f64Cmp a b
  | .string a, .string b => Option.some (charListCmp a.data b.data)
  | .bool a, .bool b => Option.some (intCmp (if a then 1 else 0) (if b then 1 else 0))
  | .null, .null => Option.some Ordering.eq
  | .int a, .float b => f64Cmp (intAsF64 a) b
  | .float a, .int b => f64Cmp a (intAsF64 b)
  | _, _ => Option.none

/-- Models `ExecutionError` (`lib.rs`).  `Arc<String>` payloads are plain
strings; the two variants carrying AST fragments
(`UnsupportedFunctionCallIdentifierType`, `UnsupportedFieldsConstruction`)
are omitted: they are raised only by `resolvers.rs`/`magic.rs` (code outside
`src/`) and no claim mentions them. -/
inductive ExecutionError where
  | invalidArgumentCount (expected actual : Nat)
  | unsupportedTargetType (target : Value)
  | notSupportedAsMethod (method : String) (target : Value)
  | unsupportedKeyType (v : Value)
  | unexpectedType (got want : String)
  | noSuchKey (k : String)
  | noSuchOverload
  | undeclaredReference (n : String)
  | missingArgumentOrTarget
  | valuesNotComparable (l r : Value)
  | unsupportedUnaryOperator (op : String) (v : Value)
  | unsupportedBinaryOperator (op : String) (l r : Value)
  | unsupportedMapIndex (v : Value)
  | unsupportedListIndex (v : Value)
  | unsupportedIndex (v idx : Value)
  | functionError (function message : String)
  | divisionByZero (v : Value)
  | remainderByZero (v : Value)
  | overflow (op : String) (l r : Value)
deriving Repr

/-- Result of one evaluation.  `ok`/`err` mirror `ResolveResult`
(`Result<Value, ExecutionError>`); `panic` is a Rust process abort
(`panic!`, `todo!`, `unreachable!`, or a debug-profile arithmetic overflow of
an unchecked operation); `outOfFuel` marks exhaustion of the explicit
recursion bound and never occurs at sufficient fuel. -/
inductive Outcome where
  | ok (v : Value)
  | err (e : ExecutionError)
  | panic
  | outOfFuel
deriving Repr

/-- Models `Value::to_bool` (`objects.rs`): only `Bool` coerces. -/
def toBool : Value → Except ExecutionError Bool
  | .bool v => .ok v
  | _ => .error .noSuchOverload

/-- Models `Value::member` (`objects.rs`): map field lookup by string key;
every other receiver (and a missing key) is `NoSuchKey`. -/
def member (v : Value) (name : String) : Except ExecutionError Value :=
  let child : Option Value :=
    match v with
    | .map entries => entLookup (Key.string name) entries
    | _ => Option.none
  match child with
  | Option.some c => .ok c
  | Option.none => .error (.noSuchKey name)

/-- Models `TryInto<Key> for Value` (`objects.rs`): `Int`, `String` and
`Bool` become keys, everything else is returned as the error payload. -/
def valueToKey : Value → Except Value Key
  | .int v => .ok (.int v)
  | .string v => .ok (.string v)
  | .bool v => .ok (.bool v)
  | v => .error v

/-- Models `From<&Key> for Value`. -/
def ofKey : Key → Value
  | .int v => .int v
  | .bool v => .bool v
  | .string v => .string v

/-- The operator-name string of `ExecutionError::Overflow("add", ..)` etc. -/
def opAdd : String := "add"

/-- Operator-name string for subtraction errors. -/
def opSub : String := "sub"

/-- Operator-name string for multiplication errors. -/
def opMul : String := "mul"

/-- Operator-name string for division errors. -/
def opDiv : String := "div"

/-- Operator-name string for remainder errors. -/
def opRem : String := "rem"

/-- Models `impl ops::Add<Value> for Value` (`objects.rs`): checked `Int`
addition, float addition, list and string concatenation (the copy-on-write
`Arc::make_mut` mechanics are pure append at the value level), otherwise
`UnsupportedBinaryOperator`. -/
def valueAdd : Value → Value → Except ExecutionError Value
  | .int l, .int r =>
    match checkedAdd l r with
    | Option.some s => .ok (.int s)
    | Option.none => .error (.overflow opAdd (.int l) (.int r))
  | .float l, .float r => .ok (.float (f64Add l r))
  | .list l, .list r => .ok (.list (l ++ r))
  | .string l, .string r => .ok (.string (l ++ r))
  | l, r => .error (.unsupportedBinaryOperator opAdd l r)

/-- Models `impl ops::Sub<Value> for Value`. -/
def valueSub : Value → Value → Except ExecutionError Value
  | .int l, .int r =>
    match checkedSub l r with
    | Option.some s => .ok (.int s)
    | Option.none => .error (.overflow opSub (.int l) (.int r))
  | .float l, .float r => .ok (.float (f64Sub l r))
  | l, r => .error (.unsupportedBinaryOperator opSub l r)

/-- Models `impl ops::Div<Value> for Value`: explicit zero-divisor check
(`DivisionByZero` carries the dividend), then `checked_div` with overflow
mapped to `Overflow`. -/
def valueDiv : Value → Value → Except ExecutionError Value
  | .int l, .int r =>
    if r = 0 then .error (.divisionByZero (.int l))
    else
      match checkedDiv l r with
      | Option.some q => .ok (.int q)
      | Option.none => .error (.overflow opDiv (.int l) (.int r))
  | .float l, .float r => .ok (.float (f64Div l r))
  | l, r => .error (.unsupportedBinaryOperator opDiv l r)

/-- Models `impl ops::Mul<Value> for Value`. -/
def valueMul : Value → Value → Except ExecutionError Value
  | .int l, .int r =>
    match checkedMul l r with
    | Option.some p => .ok (.int p)
    | Option.none => .error (.overflow opMul (.int l) (.int r))
  | .float l, .float r => .ok (.float (f64Mul l r))
  | l, r => .error (.unsupportedBinaryOperator opMul l r)

/-- Models `impl ops::Rem<Value> for Value` (no float arm in the source). -/
def valueRem : Value → Value → Except ExecutionError Value
  | .int l, .int r =>
    if r = 0 then .error (.remainderByZero (.int l))
    else
      match checkedRem l r with
      | Option.some m => .ok (.int m)
      | Option.none => .error (.overflow opRem (.int l) (.int r))
  | l, r => .error (.unsupportedBinaryOperator opRem l r)

/-- Models `CelVal` (`common/value.rs`, not under `src/`; its variants are
fixed by `From<CelVal> for Value` in `objects.rs`, which converts exactly
`String`, `Boolean`, `Int`, `Float`, `Bytes` and `Null` and is
`unimplemented!` elsewhere). -/
inductive CelVal where
  | string (s : String)
  | boolean (b : Bool)
  | int (i : Int)
  | float (f : F64)
  | bytes (bs : List Nat)
  | null
deriving Repr, DecidableEq

/-- Models `From<CelVal> for Value` (`objects.rs`). -/
def celValToValue : CelVal → Value
  | .string s => .string s
  | .boolean b => .bool b
  | .int i => .int i
  | .float f => .float f
  | .bytes bs => .bytes bs
  | .null => .null

mutual

/-- Models `IdedExpr` (`common/ast.rs`, declared outside `src/`; its shape is
fixed by its uses in `objects.rs`, `references.rs` and `macros.rs`): an AST
node tagged with a numeric id.  The id is never read by evaluation or
reference analysis. -/
inductive IdedExpr where
  | mk (id : Nat) (expr : Expr)

/-- Models `Expr` (`common/ast.rs`): the expression variants dispatched by
`Value::resolve`.  `select` inlines `SelectExpr { operand, field, test }`,
`call` inlines `CallExpr { target, func_name, args }`, `comprehension`
inlines `ComprehensionExpr`. -/
inductive Expr where
  | literal (v : CelVal)
  | ident (name : String)
  | select (operand : IdedExpr) (field : String) (test : Bool)
  | call (target : Option IdedExpr) (funcName : String) (args : List IdedExpr)
  | listE (elements : List IdedExpr)
  | mapE (entries : List EntryExpr)
  | comprehension (iterRange : IdedExpr) (iterVar : String) (iterVar2 : Option String)
      (accuVar : String) (accuInit : IdedExpr) (loopCond : IdedExpr)
      (loopStep : IdedExpr) (result : IdedExpr)
  | structE (entries : List EntryExpr)
  | unspecified

/-- Models `EntryExpr` (`common/ast.rs`): a struct field or a map entry. -/
inductive EntryExpr where
  | structField (name : String) (value : IdedExpr)
  | mapEntry (key : IdedExpr) (value : IdedExpr)

end

/- Reserved operator names (`common/ast.rs::operators`, declared outside
`src/`; modelled from the spec operator-to-name table, which `objects.rs` and
`macros.rs` reference symbolically). -/
namespace operators

def CONDITIONAL : String := "_?_:_"

def ADD : String := "_+_"

def SUBSTRACT : String := "_-_"

def DIVIDE : String := "_/_"

def MULTIPLY : String := "_*_"

def MODULO : String := "_%_"

def EQUALS : String := "_==_"

def NOT_EQUALS : String := "_!=_"

def LESS : String := "_<_"

def LESS_EQUALS : String := "_<=_"

def GREATER : String := "_>_"

def GREATER_EQUALS : String := "_>=_"

def LOGICAL_OR : String := "_||_"

def LOGICAL_AND : String := "_&&_"

def LOGICAL_NOT : String := "!_"

def NEGATE : String := "-_"

def NOT_STRICTLY_FALSE : String := "@not_strictly_false"

def INDEX : String := "_[_]"

end operators

/-- A lexical scope: the variable map of one `Context` link (newest binding
first; `HashMap::insert` overwrite is modelled by shadowing, since lookup
always takes the most recent entry). -/
abbrev Scope := List (String × Value)

/-- Models the `Context` chain (`context.rs`): innermost scope first.  The
function registry is fixed empty (`Context::empty()`), see the module
comment. -/
abbrev Ctx := List Scope

/-- First binding of a name in one scope. -/
def scopeLookup (name : String) : Scope → Option Value
  | [] => Option.none
  | b :: rest => if b.1 = name then Option.some b.2 else scopeLookup name rest

/-- Models `Context::get_variable`: child-first search up the scope chain,
`UndeclaredReference` at the root. -/
def getVariable (ctx : Ctx) (name : String) : Except ExecutionError Value :=
  match ctx with
  | [] => .error (.undeclaredReference name)
  | scope :: rest =>
    match scopeLookup name scope with
    | Option.some v => .ok v
    | Option.none => getVariable rest name

/-- Models `Context::add_variable_from_value`: insert into the innermost
scope. -/
def addVariable (ctx : Ctx) (name : String) (v : Value) : Ctx :=
  match ctx with
  | scope :: rest => ((name, v) :: scope) :: rest
  | [] => [[(name, v)]]

/-- Models `Context::new_inner_scope`: push an empty child scope. -/
def newInnerScope (ctx : Ctx) : Ctx := [] :: ctx

/-- Sequences an `Outcome`: `ok` continues, everything else propagates (the
Rust `?` operator plus panic unwinding). -/
def bindO (o : Outcome) (f : Value → Outcome) : Outcome :=
  match o with
  | .ok v => f v
  | o => o

/-- Lifts a `ResolveResult` into an `Outcome`. -/
def ofResult : Except ExecutionError Value → Outcome
  | .ok v => .ok v
  | .error e => .err e

/-- Models `HashMap::insert` on the association-list representation: replace
the binding if the key is present, append otherwise (duplicate keys never
arise; last write wins). -/
def mapInsert : List (Key × Value) → Key → Value → List (Key × Value)
  | [], k, v => [(k, v)]
  | e :: rest, k, v => if e.1 = k then (k, v) :: rest else e :: mapInsert rest k v

/-- The key-presence loop of the `Select { test: true }` arm
(`objects.rs`): true iff some key stringifies to the field name. -/
def hasKeyWithName : List (Key × Value) → String → Bool
  | [], _ => false
  | e :: rest, field => if keyToString e.1 = field then true else hasKeyWithName rest field

/-- Resolves the elements of a list literal in order, propagating the first
non-`ok` outcome (the `collect::<Result<..>>` in the `Expr::List` arm). -/
def evalElems (eval : IdedExpr → Ctx → Outcome) : List IdedExpr → Ctx → Except Outcome (List Value)
  | [], _ => .ok []
  | e :: rest, ctx =>
    match eval e ctx with
    | .ok v =>
      match evalElems eval rest ctx with
      | .ok vs => .ok (v :: vs)
      | .error o => .error o
    | o => .error o

/-- Builds a map literal (the `Expr::Map` arm of `Value::resolve`): resolve
each key, convert it to a `Key` (else `UnsupportedKeyType`), resolve the
value, insert; a `StructField` entry is the source `panic!("WAT?")`. -/
def evalMapEntries (eval : IdedExpr → Ctx → Outcome) :
    List EntryExpr → List (Key × Value) → Ctx → Except Outcome (List (Key × Value))
  | [], acc, _ => .ok acc
  | .structField _ _ :: _, _, _ => .error .panic
  | .mapEntry ke ve :: rest, acc, ctx =>
    match eval ke ctx with
    | .ok kv =>
      match valueToKey kv with
      | .error bad => .error (.err (.unsupportedKeyType bad))
      | .ok k =>
        match eval ve ctx with
        | .ok v => evalMapEntries eval rest (mapInsert acc k v) ctx
        | o => .error o
    | o => .error o

/-- The iteration loop of the `Expr::Comprehension` arm (`objects.rs`): for
each element, evaluate `loop_cond` (break on false), bind `iter_var`,
evaluate `loop_step`, rebind `accu_var`.  Returns the final context (the
source keeps mutating its child scope), or propagates the first non-`ok`
outcome. -/
def comprehensionLoop (eval : IdedExpr → Ctx → Outcome) (loopCond loopStep : IdedExpr)
    (iterVar accuVar : String) : List Value → Ctx → Except Outcome Ctx
  | [], ctx => .ok ctx
  | item :: rest, ctx =>
    match eval loopCond ctx with
    | .ok condV =>
      match toBool condV with
      | .error e => .error (.err e)
      | .ok false => .ok ctx
      | .ok true =>
        let ctx2 := addVariable ctx iterVar item
        match eval loopStep ctx2 with
        | .ok accu =>
          comprehensionLoop eval loopCond loopStep iterVar accuVar rest (addVariable ctx2 accuVar accu)
        | o => .error o
    | o => .error o

/-- List indexing of the `operators::INDEX` arm: `get(idx as usize)`,
out-of-range yields `Null`. -/
def listIndex (items : List Value) (pos : Nat) : Value :=
  match items[pos]? with
  | Option.some v => v
  | Option.none => .null

/-- Models `str::get(start..stop)` for the string-indexing arm.  Rust indexes
bytes and additionally demands char boundaries; the model indexes the
code-point sequence (identical for ASCII, and every settled claim exercises
only the out-of-range path, which agrees in both). -/
def strGetRange (s : String) (start stop : Nat) : Option String :=
  if start ≤ stop ∧ stop ≤ s.length then
    Option.some (String.mk ((s.data.drop start).take (stop - start)))
  else Option.none

/-- The body of the `operators::INDEX` arm of `Value::resolve`
(`objects.rs`), after both operands are resolved: list indexing by wrapped
`usize` cast, string slicing, map lookup by `String`/`Bool`/`Int` key,
dedicated errors otherwise (arm order as in the source). -/
def indexOp : Value → Value → Outcome
  | .list items, .int i => .ok (listIndex items (usizeOfI64 i))
  | .string s, .int i =>
    if i = i64Max then .panic
    else
      match strGetRange s (usizeOfI64 i) (usizeOfI64 (i + 1)) with
      | Option.none => .ok .null
      | Option.some sub => .ok (.string sub)
  | .map m, .string p => .ok ((entLookup (.string p) m).getD .null)
  | .map m, .bool p => .ok ((entLookup (.bool p) m).getD .null)
  | .map m, .int p => .ok ((entLookup (.int p) m).getD .null)
  | .map _, index => .err (.unsupportedMapIndex index)
  | .list _, index => .err (.unsupportedListIndex index)
  | value, index => .err (.unsupportedIndex value index)

/-- The shared body of the four comparison arms of `Value::resolve`:
`partial_cmp` with an absent ordering turned into `ValuesNotComparable`
carrying both values, a present ordering tested by the operator
(`== Less`, `!= Greater`, `== Greater`, `!= Less` respectively). -/
def cmpOp (test : Ordering → Bool) (l r : Value) : Outcome :=
  match valueCmp l r with
  | Option.some o => .ok (.bool (test o))
  | Option.none => .err (.valuesNotComparable l r)

/-- Models `Value::resolve` (`objects.rs`), the tree-walking evaluator, with
an explicit recursion budget (the Rust recursion always descends into strict
subexpressions; every theorem supplies enough fuel).  Arm order, arity
checks, evaluation order and the registry fallthrough follow the source
line-for-line; the registry is empty, so the fallthrough is
`UndeclaredReference` (looked up before the method target is resolved, as in
the source).  The `todo!`/`panic!` arms of the source (comprehension over a
non-list non-map value, `Expr::Struct`, `Expr::Unspecified`, struct-field
map entries) are `Outcome.panic`, as are the debug-profile overflows of the
unchecked `-i` negation and the unchecked `idx + 1` of string indexing. -/
def resolve : Nat → IdedExpr → Ctx → Outcome
  | 0, _, _ => .outOfFuel
  | Nat.succ n, .mk _ e, ctx =>
    match e with
    | .literal v => .ok (celValToValue v)
    | .call _target funcName args =>
      match args with
      | [a0, a1, a2] =>
        if funcName = operators.CONDITIONAL then
          bindO (resolve n a0 ctx) (fun cond =>
            match toBool cond with
            | .error e => .err e
            | .ok true => resolve n a1 ctx
            | .ok false => resolve n a2 ctx)
        else .err (.undeclaredReference funcName)
      | [a0, a1] =>
        if funcName = operators.ADD then
          bindO (resolve n a0 ctx) (fun l => bindO (resolve n a1 ctx) (fun r =>
            ofResult (valueAdd l r)))
        else if funcName = operators.SUBSTRACT then
          bindO (resolve n a0 ctx) (fun l => bindO (resolve n a1 ctx) (fun r =>
            ofResult (valueSub l r)))
        else if funcName = operators.DIVIDE then
          bindO (resolve n a0 ctx) (fun l => bindO (resolve n a1 ctx) (fun r =>
            ofResult (valueDiv l r)))
        else if funcName = operators.MULTIPLY then
          bindO (resolve n a0 ctx) (fun l => bindO (resolve n a1 ctx) (fun r =>
            ofResult (valueMul l r)))
        else if funcName = operators.MODULO then
          bindO (resolve n a0 ctx) (fun l => bindO (resolve n a1 ctx) (fun r =>
            ofResult (valueRem l r)))
        else if funcName = operators.EQUALS then
          bindO (resolve n a0 ctx) (fun l => bindO (resolve n a1 ctx) (fun r =>
            .ok (.bool (valueEq l r))))
        else if funcName = operators.NOT_EQUALS then
          bindO (resolve n a0 ctx) (fun l => bindO (resolve n a1 ctx) (fun r =>
            .ok (.bool (!valueEq l r))))
        else if funcName = operators.LESS then
          bindO (resolve n a0 ctx) (fun l => bindO (resolve n a1 ctx) (fun r =>
            cmpOp (fun o => decide (o = Ordering.lt)) l r))
        else if funcName = operators.LESS_EQUALS then
          bindO (resolve n a0 ctx) (fun l => bindO (resolve n a1 ctx) (fun r =>
            cmpOp (fun o => !decide (o = Ordering.gt)) l r))
        else if funcName = operators.GREATER then
          bindO (resolve n a0 ctx) (fun l => bindO (resolve n a1 ctx) (fun r =>
            cmpOp (fun o => decide (o = Ordering.gt)) l r))
        else if funcName = operators.GREATER_EQUALS then
          bindO (resolve n a0 ctx) (fun l => bindO (resolve n a1 ctx) (fun r =>
            cmpOp (fun o => !decide (o = Ordering.lt)) l r))
        else if funcName = operators.LOGICAL_OR then
          bindO (resolve n a0 ctx) (fun left =>
            match toBool left with
            | .error e => .err e
            | .ok true => .ok left
            | .ok false => resolve n a1 ctx)
        else if funcName = operators.LOGICAL_AND then
          bindO (resolve n a0 ctx) (fun left =>
            match toBool left with
            | .error e => .err e
            | .ok false => .ok (.bool false)
            | .ok true =>
              bindO (resolve n a1 ctx) (fun right =>
                match toBool right with
                | .error e => .err e
                | .ok b => .ok (.bool b)))
        else if funcName = operators.INDEX then
          bindO (resolve n a0 ctx) (fun value => bindO (resolve n a1 ctx) (fun idx =>
            indexOp value idx))
        else .err (.undeclaredReference funcName)
      | [a0] =>
        bindO (resolve n a0 ctx) (fun v =>
          if funcName = operators.LOGICAL_NOT then
            match toBool v with
            | .error e => .err e
            | .ok b => .ok (.bool (!b))
          else if funcName = operators.NEGATE then
            match v with
            | .int i => if i = i64Min then .panic else .ok (.int (-i))
            | .float f => .ok (.float (f64Neg f))
            | v => .err (.unsupportedUnaryOperator ("minus") v)
          else if funcName = operators.NOT_STRICTLY_FALSE then
            match v with
            | .bool b => .ok (.bool b)
            | _ => .ok (.bool true)
          else .err (.undeclaredReference funcName))
      | _ => .err (.undeclaredReference funcName)
    | .ident name => ofResult (getVariable ctx name)
    | .select operand field test =>
      bindO (resolve n operand ctx) (fun left =>
        if test then
          match left with
          | .map entries => .ok (.bool (hasKeyWithName entries field))
          | _ => .ok (.bool false)
        else ofResult (member left field))
    | .listE elements =>
      match evalElems (fun e c => resolve n e c) elements ctx with
      | .ok vs => .ok (.list vs)
      | .error o => o
    | .mapE entries =>
      match evalMapEntries (fun e c => resolve n e c) entries [] ctx with
      | .ok m => .ok (.map m)
      | .error o => o
    | .comprehension iterRange iterVar _iterVar2 accuVar accuInit loopCond loopStep result =>
      bindO (resolve n accuInit ctx) (fun accuInitV =>
        bindO (resolve n iterRange ctx) (fun iter =>
          let ctx2 := addVariable (newInnerScope ctx) accuVar accuInitV
          match iter with
          | .list items =>
            match comprehensionLoop (fun e c => resolve n e c) loopCond loopStep
                iterVar accuVar items ctx2 with
            | .ok ctxF => resolve n result ctxF
            | .error o => o
          | .map entries =>
            match comprehensionLoop (fun e c => resolve n e c) loopCond loopStep
                iterVar accuVar (entries.map (fun e => ofKey e.1)) ctx2 with
            | .ok ctxF => resolve n result ctxF
            | .error o => o
          | _ => .panic))
    | .structE _ => .panic
    | .unspecified => .panic

/-- Models `ParseError` (`parser/mod.rs`, outside `src/`): only the message is
kept; source positions belong to the external parser front-end. -/
structure ParseError where
  msg : String
deriving Repr, DecidableEq

/-- Models `MacroExprHelper::next_expr` (`parser/parser.rs`, outside `src/`):
mints a node with the next fresh id and advances the id source.  Ids are
never read by evaluation or reference analysis. -/
def nextExpr (c : Nat) (e : Expr) : IdedExpr × Nat := (.mk c e, c + 1)

/-- Models `extract_ident` (`parser/macros.rs`): the iteration-variable
argument must be a bare identifier. -/
def extractIdent : IdedExpr → Except ParseError String
  | .mk _ (.ident n) => .ok n
  | _ => .error ⟨"argument must be a simple name"⟩

/-- Models `has_macro_expander` (`parser/macros.rs`) on its single argument
(`find_expander` only selects it for a target-less one-argument call; the
`unreachable!` guards of other shapes are not modelled): a `Select` argument
gets its `test` flag set, anything else is a parse error. -/
def hasExpander (c : Nat) (arg : IdedExpr) : Except ParseError (IdedExpr × Nat) :=
  match arg with
  | .mk _ (.select operand field _) => .ok (nextExpr c (.select operand field true))
  | _ => .error ⟨"invalid argument to has() macro"⟩

/-- Models `map_macro_expander` (`parser/macros.rs`) on a present target and
two arguments (the only shape `find_expander` selects): lowers
`target.map(v, func)` to a comprehension with accumulator `@result` seeded
`[]`, loop condition `true` and step `@result + [func]`. -/
def mapExpander (c : Nat) (target arg0 arg1 : IdedExpr) : Except ParseError (IdedExpr × Nat) :=
  let func := arg1
  match extractIdent arg0 with
  | .error e => .error e
  | .ok v =>
    let (init, c) := nextExpr c (.listE [])
    let resultBinding := "@result"
    let (condition, c) := nextExpr c (.literal (.boolean true))
    let (stepArg0, c) := nextExpr c (.ident resultBinding)
    let (stepArg1, c) := nextExpr c (.listE [func])
    let (step, c) := nextExpr c (.call Option.none operators.ADD [stepArg0, stepArg1])
    let (result, c) := nextExpr c (.ident resultBinding)
    .ok (nextExpr c (.comprehension target v Option.none resultBinding init condition step result))

/-- Models `filter_macro_expander` (`parser/macros.rs`): lowers
`target.filter(v, pred)` to a comprehension with accumulator `@result`
seeded `[]`, loop condition `true` and step
`pred ? @result + [v] : @result` (the step re-uses the identifier node of the
iteration variable). -/
def filterExpander (c : Nat) (target arg0 arg1 : IdedExpr) : Except ParseError (IdedExpr × Nat) :=
  let var := arg0
  match extractIdent var with
  | .error e => .error e
  | .ok v =>
    let filt := arg1
    let (init, c) := nextExpr c (.listE [])
    let resultBinding := "@result"
    let (condition, c) := nextExpr c (.literal (.boolean true))
    let (stepArg0, c) := nextExpr c (.ident resultBinding)
    let (stepArg1, c) := nextExpr c (.listE [var])
    let (step0, c) := nextExpr c (.call Option.none operators.ADD [stepArg0, stepArg1])
    let (accu, c) := nextExpr c (.ident resultBinding)
    let (step, c) := nextExpr c (.call Option.none operators.CONDITIONAL [filt, step0, accu])
    let (result, c) := nextExpr c (.ident resultBinding)
    .ok (nextExpr c (.comprehension target v Option.none resultBinding init condition step result))

/-- Models `str::starts_with('@')` (`references.rs`; a single-character
pattern: the string is nonempty and its first character is `@`). -/
def startsWithAtSign (name : String) : Bool :=
  match name.data with
  | c :: _ => decide (c = ('@' : Char))
  | [] => false

mutual

/-- Models the variable half of `IdedExpr::_references`
(`parser/references.rs`): the names inserted into the `variables` set, in
traversal order (the source collects into a `HashSet`; only membership
matters).  An `Ident` contributes its name unless it starts with the
synthetic marker `@`; a comprehension visits `iter_range`, `accu_init`,
`loop_cond`, `loop_step` and `result`. -/
def refVariables : IdedExpr → List String
  | .mk _ e => refVariablesE e
termination_by structural x => x

/-- Variable references of one `Expr` (see `refVariables`). -/
def refVariablesE : Expr → List String
  | .unspecified => []
  | .call target _ args =>
    (match target with
     | Option.some t => refVariables t
     | Option.none => []) ++ refVariablesList args
  | .comprehension iterRange _ _ _ accuInit loopCond loopStep result =>
    refVariables iterRange ++ refVariables accuInit ++ refVariables loopCond
      ++ refVariables loopStep ++ refVariables result
  | .ident name => if startsWithAtSign name then [] else [name]
  | .listE es => refVariablesList es
  | .literal _ => []
  | .mapE entries => refVariablesEntries entries
  | .select operand _ _ => refVariables operand
  | .structE entries => refVariablesEntries entries
termination_by structural x => x

/-- Variable references of an expression list. -/
def refVariablesList : List IdedExpr → List String
  | [] => []
  | e :: rest => refVariables e ++ refVariablesList rest
termination_by structural x => x

/-- Variable references of map/struct entries. -/
def refVariablesEntries : List EntryExpr → List String
  | [] => []
  | .structField _ v :: rest => refVariables v ++ refVariablesEntries rest
  | .mapEntry k v :: rest => refVariables k ++ refVariables v ++ refVariablesEntries rest
termination_by structural x => x

end

/-- The `try_fold` of `functions::max` (`functions.rs`): keep the running
maximum, error when an adjacent pair is incomparable. -/
def maxFold (acc : Value) : List Value → Except ExecutionError Value
  | [] => .ok acc
  | x :: rest =>
    match valueCmp acc x with
    | Option.some Ordering.gt => maxFold acc rest
    | Option.some _ => maxFold x rest
    | Option.none => .error (.valuesNotComparable acc x)

/-- Models `functions::max` on its (pre-evaluated) argument values: a single
list argument is unwrapped, a single non-list argument is returned as-is,
otherwise the argument sequence itself is folded starting from its first
element (or `Null` when empty). -/
def maxFn (args : List Value) : Except ExecutionError Value :=
  match args with
  | [Value.list values] => maxFold ((values.head?).getD Value.null) (values.drop 1)
  | [v] => .ok v
  | _ => maxFold ((args.head?).getD Value.null) (args.drop 1)

/-- The `try_fold` of `functions::min`. -/
def minFold (acc : Value) : List Value → Except ExecutionError Value
  | [] => .ok acc
  | x :: rest =>
    match valueCmp acc x with
    | Option.some Ordering.lt => minFold acc rest
    | Option.some _ => minFold x rest
    | Option.none => .error (.valuesNotComparable acc x)

/-- Models `functions::min` on its argument values (dual of `maxFn`). -/
def minFn (args : List Value) : Except ExecutionError Value :=
  match args with
  | [Value.list values] => minFold ((values.head?).getD Value.null) (values.drop 1)
  | [v] => .ok v
  | _ => minFold ((args.head?).getD Value.null) (args.drop 1)

mutual

/-- Specification-side predicate: the value contains no `Float(NaN)`
anywhere (not itself NaN, and no list element, map value or function
receiver contains one). -/
def nanFree : Value → Bool
  | .list xs => nanFreeList xs
  | .map es => nanFreeEntries es
  | .function _ (Option.some r) => nanFree r
  | .function _ Option.none => true
  | .float .nan => false
  | .float (.num _) => true
  | _ => true
termination_by structural x => x

/-- NaN-freedom of a list of values. -/
def nanFreeList : List Value → Bool
  | [] => true
  | x :: xs => nanFree x && nanFreeList xs
termination_by structural x => x

/-- NaN-freedom of map entries. -/
def nanFreeEntries : List (Key × Value) → Bool
  | [] => true
  | (_, v) :: rest => nanFree v && nanFreeEntries rest
termination_by structural x => x

end

/-- Whether the key of the head entry is absent from the rest (used to state
the `HashMap` no-duplicate-keys invariant on the association-list model). -/
def keyAbsent (k : Key) : List (Key × Value) → Bool
  | [] => true
  | e :: rest => if e.1 = k then false else keyAbsent k rest

mutual

/-- Specification-side predicate: every map inside the value has pairwise
distinct keys — the invariant every Rust `HashMap` maintains by
construction, which the association-list model states explicitly. -/
def wfValue : Value → Bool
  | .list xs => wfList xs
  | .map es => wfEntries es
  | .function _ (Option.some r) => wfValue r
  | .function _ Option.none => true
  | _ => true
termination_by structural x => x

/-- Well-formedness of a list of values. -/
def wfList : List Value → Bool
  | [] => true
  | x :: xs => wfValue x && wfList xs
termination_by structural x => x

/-- Well-formedness of map entries: distinct keys, well-formed values. -/
def wfEntries : List (Key × Value) → Bool
  | [] => true
  | (k, v) :: rest => keyAbsent k rest && wfValue v && wfEntries rest
termination_by structural x => x

end

/-! ## General lemmas about the embedding -/

@[simp]
lemma i64Fits_iff (x : Int) : i64Fits x = true ↔ (i64Min ≤ x ∧ x ≤ i64Max) := by
  simp [i64Fits]

lemma i64Min_def : i64Min = -(2 ^ 63) := rfl

lemma i64Max_def : i64Max = 2 ^ 63 - 1 := rfl

/-- For an `i64`-ranged negative index, the `as usize` cast lands at or above
`2^63`, beyond the length of any Rust collection. -/
lemma usizeOfI64_neg_large {idx : Int} (h1 : i64Min ≤ idx) (h2 : idx < 0) :
    2 ^ 63 ≤ usizeOfI64 idx := by
  have hm : idx % (2 : Int) ^ 64 = idx + 2 ^ 64 := by
    rw [i64Min_def] at h1
    omega
  simp only [usizeOfI64, hm]
  rw [i64Min_def] at h1
  omega


/-! ## Dispatch lemmas: one evaluation step of each reserved operator call -/

lemma resolve_conditional (n i : Nat) (t : Option IdedExpr) (a b c : IdedExpr) (ctx : Ctx) :
    resolve (n + 1) (.mk i (.call t operators.CONDITIONAL [a, b, c])) ctx
      = bindO (resolve n a ctx) (fun cond =>
          match toBool cond with
          | .error e => .err e
          | .ok true => resolve n b ctx
          | .ok false => resolve n c ctx) := by
  simp [resolve, operators.CONDITIONAL, operators.ADD, operators.SUBSTRACT, operators.DIVIDE,
    operators.MULTIPLY, operators.MODULO, operators.EQUALS, operators.NOT_EQUALS,
    operators.LESS, operators.LESS_EQUALS, operators.GREATER, operators.GREATER_EQUALS,
    operators.LOGICAL_OR, operators.LOGICAL_AND, operators.LOGICAL_NOT, operators.NEGATE,
    operators.NOT_STRICTLY_FALSE, operators.INDEX]

lemma resolve_add (n i : Nat) (t : Option IdedExpr) (a b : IdedExpr) (ctx : Ctx) :
    resolve (n + 1) (.mk i (.call t operators.ADD [a, b])) ctx
      = bindO (resolve n a ctx) (fun l => bindO (resolve n b ctx) (fun r =>
          ofResult (valueAdd l r))) := by
  simp [resolve, operators.CONDITIONAL, operators.ADD, operators.SUBSTRACT, operators.DIVIDE,
    operators.MULTIPLY, operators.MODULO, operators.EQUALS, operators.NOT_EQUALS,
    operators.LESS, operators.LESS_EQUALS, operators.GREATER, operators.GREATER_EQUALS,
    operators.LOGICAL_OR, operators.LOGICAL_AND, operators.LOGICAL_NOT, operators.NEGATE,
    operators.NOT_STRICTLY_FALSE, operators.INDEX]

lemma resolve_less (n i : Nat) (t : Option IdedExpr) (a b : IdedExpr) (ctx : Ctx) :
    resolve (n + 1) (.mk i (.call t operators.LESS [a, b])) ctx
      = bindO (resolve n a ctx) (fun l => bindO (resolve n b ctx) (fun r =>
          cmpOp (fun o => decide (o = Ordering.lt)) l r)) := by
  simp [resolve, operators.CONDITIONAL, operators.ADD, operators.SUBSTRACT, operators.DIVIDE,
    operators.MULTIPLY, operators.MODULO, operators.EQUALS, operators.NOT_EQUALS,
    operators.LESS, operators.LESS_EQUALS, operators.GREATER, operators.GREATER_EQUALS,
    operators.LOGICAL_OR, operators.LOGICAL_AND, operators.LOGICAL_NOT, operators.NEGATE,
    operators.NOT_STRICTLY_FALSE, operators.INDEX]

lemma resolve_less_equals (n i : Nat) (t : Option IdedExpr) (a b : IdedExpr) (ctx : Ctx) :
    resolve (n + 1) (.mk i (.call t operators.LESS_EQUALS [a, b])) ctx
      = bindO (resolve n a ctx) (fun l => bindO (resolve n b ctx) (fun r =>
          cmpOp (fun o => !decide (o = Ordering.gt)) l r)) := by
  simp [resolve, operators.CONDITIONAL, operators.ADD, operators.SUBSTRACT, operators.DIVIDE,
    operators.MULTIPLY, operators.MODULO, operators.EQUALS, operators.NOT_EQUALS,
    operators.LESS, operators.LESS_EQUALS, operators.GREATER, operators.GREATER_EQUALS,
    operators.LOGICAL_OR, operators.LOGICAL_AND, operators.LOGICAL_NOT, operators.NEGATE,
    operators.NOT_STRICTLY_FALSE, operators.INDEX]

lemma resolve_greater (n i : Nat) (t : Option IdedExpr) (a b : IdedExpr) (ctx : Ctx) :
    resolve (n + 1) (.mk i (.call t operators.GREATER [a, b])) ctx
      = bindO (resolve n a ctx) (fun l => bindO (resolve n b ctx) (fun r =>
          cmpOp (fun o => decide (o = Ordering.gt)) l r)) := by
  simp [resolve, operators.CONDITIONAL, operators.ADD, operators.SUBSTRACT, operators.DIVIDE,
    operators.MULTIPLY, operators.MODULO, operators.EQUALS, operators.NOT_EQUALS,
    operators.LESS, operators.LESS_EQUALS, operators.GREATER, operators.GREATER_EQUALS,
    operators.LOGICAL_OR, operators.LOGICAL_AND, operators.LOGICAL_NOT, operators.NEGATE,
    operators.NOT_STRICTLY_FALSE, operators.INDEX]

lemma resolve_greater_equals (n i : Nat) (t : Option IdedExpr) (a b : IdedExpr) (ctx : Ctx) :
    resolve (n + 1) (.mk i (.call t operators.GREATER_EQUALS [a, b])) ctx
      = bindO (resolve n a ctx) (fun l => bindO (resolve n b ctx) (fun r =>
          cmpOp (fun o => !decide (o = Ordering.lt)) l r)) := by
  simp [resolve, operators.CONDITIONAL, operators.ADD, operators.SUBSTRACT, operators.DIVIDE,
    operators.MULTIPLY, operators.MODULO, operators.EQUALS, operators.NOT_EQUALS,
    operators.LESS, operators.LESS_EQUALS, operators.GREATER, operators.GREATER_EQUALS,
    operators.LOGICAL_OR, operators.LOGICAL_AND, operators.LOGICAL_NOT, operators.NEGATE,
    operators.NOT_STRICTLY_FALSE, operators.INDEX]

lemma resolve_logical_or (n i : Nat) (t : Option IdedExpr) (a b : IdedExpr) (ctx : Ctx) :
    resolve (n + 1) (.mk i (.call t operators.LOGICAL_OR [a, b])) ctx
      = bindO (resolve n a ctx) (fun left =>
          match toBool left with
          | .error e => .err e
          | .ok true => .ok left
          | .ok false => resolve n b ctx) := by
  simp [resolve, operators.CONDITIONAL, operators.ADD, operators.SUBSTRACT, operators.DIVIDE,
    operators.MULTIPLY, operators.MODULO, operators.EQUALS, operators.NOT_EQUALS,
    operators.LESS, operators.LESS_EQUALS, operators.GREATER, operators.GREATER_EQUALS,
    operators.LOGICAL_OR, operators.LOGICAL_AND, operators.LOGICAL_NOT, operators.NEGATE,
    operators.NOT_STRICTLY_FALSE, operators.INDEX]

lemma resolve_logical_and (n i : Nat) (t : Option IdedExpr) (a b : IdedExpr) (ctx : Ctx) :
    resolve (n + 1) (.mk i (.call t operators.LOGICAL_AND [a, b])) ctx
      = bindO (resolve n a ctx) (fun left =>
          match toBool left with
          | .error e => .err e
          | .ok false => .ok (.bool false)
          | .ok true =>
            bindO (resolve n b ctx) (fun right =>
              match toBool right with
              | .error e => .err e
              | .ok b => .ok (.bool b))) := by
  simp [resolve, operators.CONDITIONAL, operators.ADD, operators.SUBSTRACT, operators.DIVIDE,
    operators.MULTIPLY, operators.MODULO, operators.EQUALS, operators.NOT_EQUALS,
    operators.LESS, operators.LESS_EQUALS, operators.GREATER, operators.GREATER_EQUALS,
    operators.LOGICAL_OR, operators.LOGICAL_AND, operators.LOGICAL_NOT, operators.NEGATE,
    operators.NOT_STRICTLY_FALSE, operators.INDEX]

lemma resolve_index_call (n i : Nat) (t : Option IdedExpr) (a b : IdedExpr) (ctx : Ctx) :
    resolve (n + 1) (.mk i (.call t operators.INDEX [a, b])) ctx
      = bindO (resolve n a ctx) (fun value => bindO (resolve n b ctx) (fun idx =>
          indexOp value idx)) := by
  simp [resolve, operators.CONDITIONAL, operators.ADD, operators.SUBSTRACT, operators.DIVIDE,
    operators.MULTIPLY, operators.MODULO, operators.EQUALS, operators.NOT_EQUALS,
    operators.LESS, operators.LESS_EQUALS, operators.GREATER, operators.GREATER_EQUALS,
    operators.LOGICAL_OR, operators.LOGICAL_AND, operators.LOGICAL_NOT, operators.NEGATE,
    operators.NOT_STRICTLY_FALSE, operators.INDEX]

lemma resolve_comprehension_list (n i : Nat) (iterRange : IdedExpr) (iterVar : String)
    (iterVar2 : Option String) (accuVar : String) (accuInit loopCond loopStep result : IdedExpr)
    (ctx : Ctx) (accuInitV : Value) (items : List Value)
    (hinit : resolve n accuInit ctx = .ok accuInitV)
    (hiter : resolve n iterRange ctx = .ok (.list items)) :
    resolve (n + 1) (.mk i (.comprehension iterRange iterVar iterVar2 accuVar accuInit
        loopCond loopStep result)) ctx
      = (match comprehensionLoop (fun e c => resolve n e c) loopCond loopStep iterVar accuVar
            items (addVariable (newInnerScope ctx) accuVar accuInitV) with
        | .ok ctxF => resolve n result ctxF
        | .error o => o) := by
  simp [resolve, bindO, hinit, hiter]

/-! ## C1 -/

/-- C1: refuted by the code (code bug).  Executing the macro-lowered program
`(1).map(x, x)` reaches the `todo!("Support {t:?}")` arm of the
comprehension evaluator (iteration range resolves to `Int(1)`, neither list
nor map) and aborts the process, and the `-_` operator applied to
`Int(i64::MIN)` negates without a check and aborts (debug profile) instead
of returning an enumerated `ExecutionError`. -/
theorem c1_execute_panics_on_noniterable_and_min_negate :
    Except.map (fun p => resolve 10 p.1 [[]])
        (mapExpander 10 (.mk 0 (.literal (.int 1))) (.mk 1 (.ident ("x")))
          (.mk 2 (.ident ("x"))))
      = Except.ok Outcome.panic
    ∧ resolve 10
        (.mk 0 (.call Option.none operators.NEGATE [.mk 1 (.literal (.int i64Min))])) [[]]
      = Outcome.panic :=
  ⟨rfl, rfl⟩

/-! ## C2 -/

/-- C2: counterexample to the claim as stated.  For the map `{"k": Null}`
(the key `"k"` is present but explicitly bound to `Null`), the lowered
`has(m.k)` evaluates to `Bool(true)`, whereas the claim demands `false`
whenever `m[k]` is `Null`. -/
theorem c2_has_explicit_null_counterexample :
    Except.map
        (fun p => resolve 10 p.1 [[(("m"), Value.map [(Key.string ("k"), Value.null)])]])
        (hasExpander 10 (.mk 0 (.select (.mk 1 (.ident ("m"))) ("k") false)))
      = Except.ok (Outcome.ok (Value.bool true))
    ∧ entLookup (Key.string ("k")) [(Key.string ("k"), Value.null)] = Option.some Value.null :=
  ⟨rfl, rfl⟩

/-- C2 (amended): on a map operand, the lowered `has(m.k)` (a `Select` with
`test = true`) yields `Bool(true)` iff some present key of the map
stringifies to the field name — regardless of the bound value, so an
explicit `Null` binding still counts as present. -/
theorem c2_has_tests_key_presence (n i : Nat) (e : IdedExpr) (ctx : Ctx)
    (entries : List (Key × Value)) (field : String)
    (h : resolve n e ctx = .ok (.map entries)) :
    resolve (n + 1) (.mk i (.select e field true)) ctx
      = .ok (.bool (hasKeyWithName entries field)) := by
  simp [resolve, bindO, h]

/-- Witness for C2: instantiates the presence law on `m = {"k": Null}` with
field `"k"`. -/
theorem c2_has_tests_key_presence_witness :
    resolve 2 (.mk 0 (.select (.mk 1 (.ident ("m"))) ("k") true))
        [[(("m"), Value.map [(Key.string ("k"), Value.null)])]]
      = .ok (.bool true) :=
  c2_has_tests_key_presence 1 0 _ _ [(Key.string ("k"), Value.null)] ("k") rfl

/-! ## C3 -/

mutual

/-- No name reported by reference analysis starts with the synthetic `@`
marker (so the comprehension accumulator `@result` is never reported). -/
theorem refVariables_no_synthetic :
    ∀ (e : IdedExpr), ∀ name ∈ refVariables e, startsWithAtSign name = false
  | .mk _ e => by
    simpa [refVariables] using refVariablesE_no_synthetic e
termination_by structural e => e

/-- Expression case of `refVariables_no_synthetic`. -/
theorem refVariablesE_no_synthetic :
    ∀ (e : Expr), ∀ name ∈ refVariablesE e, startsWithAtSign name = false
  | .unspecified => by simp [refVariablesE]
  | .call Option.none _ args => by
    simpa [refVariablesE] using refVariablesList_no_synthetic args
  | .call (Option.some t) _ args => by
    simp only [refVariablesE, List.mem_append]
    rintro name (h | h)
    · exact refVariables_no_synthetic t name h
    · exact refVariablesList_no_synthetic args name h
  | .comprehension iterRange iv iv2 av accuInit loopCond loopStep result => by
    simp only [refVariablesE, List.mem_append]
    rintro name ((((h | h) | h) | h) | h)
    · exact refVariables_no_synthetic iterRange name h
    · exact refVariables_no_synthetic accuInit name h
    · exact refVariables_no_synthetic loopCond name h
    · exact refVariables_no_synthetic loopStep name h
    · exact refVariables_no_synthetic result name h
  | .ident n => by
    intro name hmem
    by_cases h : startsWithAtSign n = true
    · simp [refVariablesE, h] at hmem
    · simp [refVariablesE, h] at hmem
      subst hmem
      simpa using h
  | .listE es => by
    simpa [refVariablesE] using refVariablesList_no_synthetic es
  | .literal _ => by simp [refVariablesE]
  | .mapE entries => by
    simpa [refVariablesE] using refVariablesEntries_no_synthetic entries
  | .select operand _ _ => by
    simpa [refVariablesE] using refVariables_no_synthetic operand
  | .structE entries => by
    simpa [refVariablesE] using refVariablesEntries_no_synthetic entries
termination_by structural e => e

/-- List case of `refVariables_no_synthetic`. -/
theorem refVariablesList_no_synthetic :
    ∀ (es : List IdedExpr), ∀ name ∈ refVariablesList es, startsWithAtSign name = false
  | [] => by simp [refVariablesList]
  | e :: rest => by
    simp only [refVariablesList, List.mem_append]
    rintro name (h | h)
    · exact refVariables_no_synthetic e name h
    · exact refVariablesList_no_synthetic rest name h
termination_by structural es => es

/-- Entry case of `refVariables_no_synthetic`. -/
theorem refVariablesEntries_no_synthetic :
    ∀ (es : List EntryExpr), ∀ name ∈ refVariablesEntries es, startsWithAtSign name = false
  | [] => by simp [refVariablesEntries]
  | .structField _ v :: rest => by
    simp only [refVariablesEntries, List.mem_append]
    rintro name (h | h)
    · exact refVariables_no_synthetic v name h
    · exact refVariablesEntries_no_synthetic rest name h
  | .mapEntry k v :: rest => by
    simp only [refVariablesEntries, List.mem_append]
    rintro name ((h | h) | h)
    · exact refVariables_no_synthetic k name h
    · exact refVariables_no_synthetic v name h
    · exact refVariablesEntries_no_synthetic rest name h
termination_by structural es => es

end

/-- C3: counterexample to the claim as stated.  For the macro-lowered program
`[1, 1].map(x, x * 2)` (the very program of the repository's own
`tests::references`, which asserts `has_variable("x")`), reference analysis
DOES report the iteration variable `x`: its occurrence in the lowered loop
step is an ordinary `Ident` not starting with `@`. -/
theorem c3_iteration_variable_reported_counterexample :
    Except.map (fun p => (refVariables p.1).contains ("x"))
        (mapExpander 7
          (.mk 0 (.listE [.mk 1 (.literal (.int 1)), .mk 2 (.literal (.int 1))]))
          (.mk 3 (.ident ("x")))
          (.mk 4 (.call Option.none operators.MULTIPLY
            [.mk 5 (.ident ("x")), .mk 6 (.literal (.int 2))])))
      = Except.ok true := rfl

/-- C3 (amended): reference analysis excludes exactly the names starting with
the synthetic `@` marker — hence the comprehension accumulator `@result` is
never reported — but the comprehension iteration variable IS reported
whenever it occurs in the macro body: the lowered `[1, 1].map(x, x * 2)`
reports precisely `x`. -/
theorem c3_references_exclude_synthetic_names_only :
    (∀ (e : IdedExpr), ∀ name ∈ refVariables e, startsWithAtSign name = false)
    ∧ Except.map (fun p => refVariables p.1)
        (mapExpander 7
          (.mk 0 (.listE [.mk 1 (.literal (.int 1)), .mk 2 (.literal (.int 1))]))
          (.mk 3 (.ident ("x")))
          (.mk 4 (.call Option.none operators.MULTIPLY
            [.mk 5 (.ident ("x")), .mk 6 (.literal (.int 2))])))
      = Except.ok [("x")] :=
  ⟨refVariables_no_synthetic, rfl⟩

/-- Witness for C3: the name `x` is reported for the program `x` and indeed
does not start with `@`. -/
theorem c3_references_exclude_synthetic_names_only_witness :
    ("x") ∈ refVariables (.mk 0 (.ident ("x")))
    ∧ startsWithAtSign ("x") = false := by
  have h : refVariables (.mk 0 (.ident ("x"))) = [("x")] := rfl
  refine ⟨?_, ?_⟩
  · rw [h]
    exact List.mem_singleton.mpr rfl
  · exact c3_references_exclude_synthetic_names_only.1 (.mk 0 (.ident ("x"))) ("x")
      (by rw [h]; exact List.mem_singleton.mpr rfl)

/-! ## C4 -/

lemma toBool_eq_error {v : Value} (h : ∀ c : Bool, v ≠ .bool c) :
    toBool v = .error .noSuchOverload := by
  cases v <;> first | rfl | exact absurd rfl (h _)

/-- C4: confirmed.  `a && b` evaluates `a` first: `Bool(false)` short-circuits
to `Bool(false)` without evaluating `b` (the result does not depend on `b`,
so an error in `b` cannot occur); `Bool(true)` makes the result
`Bool(to_bool(b))`, with a non-bool `b` yielding `NoSuchOverload`.  `a || b`
evaluates `a` first: `Bool(true)` returns the left value without evaluating
`b`; `Bool(false)` returns the evaluation of `b` unchanged.  A non-bool left
operand yields `NoSuchOverload` for both operators. -/
theorem c4_short_circuit_and_or (n i : Nat) (t : Option IdedExpr) (a b : IdedExpr)
    (ctx : Ctx) (v rv : Value) (c : Bool) :
    (resolve n a ctx = .ok (.bool false) →
      resolve (n + 1) (.mk i (.call t operators.LOGICAL_AND [a, b])) ctx = .ok (.bool false))
    ∧ (resolve n a ctx = .ok (.bool true) → resolve n b ctx = .ok (.bool c) →
      resolve (n + 1) (.mk i (.call t operators.LOGICAL_AND [a, b])) ctx = .ok (.bool c))
    ∧ (resolve n a ctx = .ok (.bool true) → resolve n b ctx = .ok rv →
      (∀ c0 : Bool, rv ≠ .bool c0) →
      resolve (n + 1) (.mk i (.call t operators.LOGICAL_AND [a, b])) ctx
        = .err .noSuchOverload)
    ∧ (resolve n a ctx = .ok v → (∀ c0 : Bool, v ≠ .bool c0) →
      resolve (n + 1) (.mk i (.call t operators.LOGICAL_AND [a, b])) ctx
        = .err .noSuchOverload)
    ∧ (resolve n a ctx = .ok (.bool true) →
      resolve (n + 1) (.mk i (.call t operators.LOGICAL_OR [a, b])) ctx = .ok (.bool true))
    ∧ (resolve n a ctx = .ok (.bool false) →
      resolve (n + 1) (.mk i (.call t operators.LOGICAL_OR [a, b])) ctx = resolve n b ctx)
    ∧ (resolve n a ctx = .ok v → (∀ c0 : Bool, v ≠ .bool c0) →
      resolve (n + 1) (.mk i (.call t operators.LOGICAL_OR [a, b])) ctx
        = .err .noSuchOverload) := by
  refine ⟨?_, ?_, ?_, ?_, ?_, ?_, ?_⟩
  · intro h1
    rw [resolve_logical_and, h1]
    rfl
  · intro h1 h2
    rw [resolve_logical_and, h1]
    simp [bindO, toBool, h2]
  · intro h1 h2 hnb
    rw [resolve_logical_and, h1]
    simp [bindO, toBool, h2, toBool_eq_error hnb]
  · intro h1 hnb
    rw [resolve_logical_and, h1]
    simp [bindO, toBool_eq_error hnb]
  · intro h1
    rw [resolve_logical_or, h1]
    rfl
  · intro h1
    rw [resolve_logical_or, h1]
    rfl
  · intro h1 hnb
    rw [resolve_logical_or, h1]
    simp [bindO, toBool_eq_error hnb]

/-- Witness for C4: `false && err` is `false`, `true && true` is `true`,
`1 && false` is `NoSuchOverload`, `true || err` is `true`, and
`false || 5` is `Int(5)` (the right side of `||` is returned unchanged). -/
theorem c4_short_circuit_and_or_witness :
    resolve 2 (.mk 0 (.call Option.none operators.LOGICAL_AND
        [.mk 1 (.literal (.boolean false)), .mk 2 (.ident ("zzz"))])) [[]]
      = .ok (.bool false)
    ∧ resolve 2 (.mk 0 (.call Option.none operators.LOGICAL_AND
        [.mk 1 (.literal (.boolean true)), .mk 2 (.literal (.boolean true))])) [[]]
      = .ok (.bool true)
    ∧ resolve 2 (.mk 0 (.call Option.none operators.LOGICAL_AND
        [.mk 1 (.literal (.int 1)), .mk 2 (.literal (.boolean false))])) [[]]
      = .err .noSuchOverload
    ∧ resolve 2 (.mk 0 (.call Option.none operators.LOGICAL_OR
        [.mk 1 (.literal (.boolean true)), .mk 2 (.ident ("zzz"))])) [[]]
      = .ok (.bool true)
    ∧ resolve 2 (.mk 0 (.call Option.none operators.LOGICAL_OR
        [.mk 1 (.literal (.boolean false)), .mk 2 (.literal (.int 5))])) [[]]
      = .ok (.int 5) := by
  refine ⟨?_, ?_, ?_, ?_, ?_⟩
  · exact (c4_short_circuit_and_or 1 0 Option.none _ _ [[]] .null .null true).1 rfl
  · exact (c4_short_circuit_and_or 1 0 Option.none _ _ [[]] .null .null true).2.1 rfl rfl
  · exact (c4_short_circuit_and_or 1 0 Option.none _ _ [[]] (.int 1) .null true).2.2.2.1 rfl
      (fun c0 h => Value.noConfusion h)
  · exact (c4_short_circuit_and_or 1 0 Option.none _ _ [[]] .null .null true).2.2.2.2.1 rfl
  · exact ((c4_short_circuit_and_or 1 0 Option.none (.mk 1 (.literal (.boolean false)))
      (.mk 2 (.literal (.int 5))) [[]] .null .null true).2.2.2.2.2.1 rfl).trans rfl

/-! ## C7 -/

/-- C7: confirmed.  Whenever the partial ordering of the two resolved
operands is absent, each of `<`, `<=`, `>`, `>=` returns a
`ValuesNotComparable` error carrying both values (never a silent boolean);
and the ordering is indeed absent whenever either operand is `Float(NaN)`,
and whenever the operands are of different kinds other than an
`{Int, Float}` pair. -/
theorem c7_incomparable_comparisons_error (n i : Nat) (t : Option IdedExpr)
    (a b : IdedExpr) (ctx : Ctx) (l r : Value) :
    (resolve n a ctx = .ok l → resolve n b ctx = .ok r → valueCmp l r = Option.none →
      (resolve (n + 1) (.mk i (.call t operators.LESS [a, b])) ctx
          = .err (.valuesNotComparable l r)
        ∧ resolve (n + 1) (.mk i (.call t operators.LESS_EQUALS [a, b])) ctx
          = .err (.valuesNotComparable l r)
        ∧ resolve (n + 1) (.mk i (.call t operators.GREATER [a, b])) ctx
          = .err (.valuesNotComparable l r)
        ∧ resolve (n + 1) (.mk i (.call t operators.GREATER_EQUALS [a, b])) ctx
          = .err (.valuesNotComparable l r)))
    ∧ (∀ v w : Value, (v = .float .nan ∨ w = .float .nan) → valueCmp v w = Option.none)
    ∧ (∀ v w : Value, typeOf v ≠ typeOf w →
        ¬(typeOf v = ValueType.int ∧ typeOf w = ValueType.float) →
        ¬(typeOf v = ValueType.float ∧ typeOf w = ValueType.int) →
        valueCmp v w = Option.none) := by
  refine ⟨?_, ?_, ?_⟩
  · intro h1 h2 hcmp
    refine ⟨?_, ?_, ?_, ?_⟩
    · rw [resolve_less, h1]
      simp [bindO, h2, cmpOp, hcmp]
    · rw [resolve_less_equals, h1]
      simp [bindO, h2, cmpOp, hcmp]
    · rw [resolve_greater, h1]
      simp [bindO, h2, cmpOp, hcmp]
    · rw [resolve_greater_equals, h1]
      simp [bindO, h2, cmpOp, hcmp]
  · rintro v w (rfl | rfl)
    · cases w <;> simp [valueCmp, f64Cmp]
    · cases v <;> simp [valueCmp, f64Cmp]
  · intro v w hne hif hfi
    cases v <;> cases w <;> simp_all [valueCmp, typeOf]

/-- Witness for C7: `NaN < 0.0` errors with `ValuesNotComparable`. -/
theorem c7_incomparable_comparisons_error_witness :
    resolve 2 (.mk 0 (.call Option.none operators.LESS
        [.mk 1 (.literal (.float .nan)), .mk 2 (.literal (.float (.num 0)))])) [[]]
      = .err (.valuesNotComparable (.float .nan) (.float (.num 0))) :=
  ((c7_incomparable_comparisons_error 1 0 Option.none
      (.mk 1 (.literal (.float .nan))) (.mk 2 (.literal (.float (.num 0)))) [[]]
      (.float .nan) (.float (.num 0))).1 rfl rfl rfl).1

/-! ## C5 -/

lemma natAbs_le_of_i64 {a : Int} (h : i64Min ≤ a ∧ a ≤ i64Max) : a.natAbs ≤ 2 ^ 63 := by
  rw [i64Min_def, i64Max_def] at h
  omega

/-- The division-overflow characterization: within the `i64` range with a
nonzero divisor, the truncated quotient is unrepresentable exactly on
`MIN / -1`. -/
lemma tdiv_fits_iff {a b : Int} (ha : i64Min ≤ a ∧ a ≤ i64Max)
    (hb : i64Min ≤ b ∧ b ≤ i64Max) (hb0 : b ≠ 0) :
    i64Fits (Int.tdiv a b) = true ↔ ¬(a = i64Min ∧ b = -1) := by
  constructor
  · rintro hfit ⟨rfl, rfl⟩
    rw [show Int.tdiv i64Min (-1) = 2 ^ 63 from by decide] at hfit
    simp [i64Min_def, i64Max_def] at hfit
  · intro hne
    have habs : (Int.tdiv a b).natAbs = a.natAbs / b.natAbs := Int.natAbs_tdiv a b
    have haa := natAbs_le_of_i64 ha
    rcases Nat.lt_or_ge b.natAbs 2 with h2 | h2
    · -- divisor is ±1
      have : b = 1 ∨ b = -1 := by omega
      rcases this with rfl | rfl
      · simpa [Int.tdiv_one] using ha
      · have hne1 : a ≠ i64Min := by
          intro h; exact hne ⟨h, rfl⟩
        have : Int.tdiv a (-1) = -a := by
          rw [Int.tdiv_neg, Int.tdiv_one]
        rw [this]
        rw [i64Fits_iff, i64Min_def, i64Max_def]
        rw [i64Min_def, i64Max_def] at ha
        rw [i64Min_def] at hne1
        omega
    · -- |b| ≥ 2, so |a / b| ≤ |a| / 2 ≤ 2^62
      have hd : a.natAbs / b.natAbs ≤ a.natAbs / 2 :=
        Nat.div_le_div_left h2 (by omega)
      have hd2 : a.natAbs / 2 ≤ 2 ^ 63 / 2 := Nat.div_le_div_right haa
      rw [i64Fits_iff, i64Min_def, i64Max_def]
      omega

/-- C5: confirmed.  `Value` integer arithmetic is checked: `+`, `-`, `*`
return `Overflow` exactly when the mathematical result leaves the `i64`
range; `/` returns `DivisionByZero` exactly on a zero divisor and `Overflow`
exactly on `MIN / -1` (the only in-range inputs whose truncated quotient is
unrepresentable); `%` returns `RemainderByZero` exactly on a zero divisor
and `Overflow` on the same `MIN % -1` edge; otherwise each returns the exact
(untruncated for `+,-,*`; truncated-toward-zero quotient / dividend-signed
remainder for `/","%`) integer result, never a wrapped value. -/
theorem c5_checked_int_arithmetic (a b : Int)
    (ha : i64Fits a = true) (hb : i64Fits b = true) :
    (valueAdd (.int a) (.int b)
      = if i64Fits (a + b) then .ok (.int (a + b))
        else .error (.overflow opAdd (.int a) (.int b)))
    ∧ (valueSub (.int a) (.int b)
      = if i64Fits (a - b) then .ok (.int (a - b))
        else .error (.overflow opSub (.int a) (.int b)))
    ∧ (valueMul (.int a) (.int b)
      = if i64Fits (a * b) then .ok (.int (a * b))
        else .error (.overflow opMul (.int a) (.int b)))
    ∧ (valueDiv (.int a) (.int b)
      = if b = 0 then .error (.divisionByZero (.int a))
        else if a = i64Min ∧ b = -1 then .error (.overflow opDiv (.int a) (.int b))
        else .ok (.int (Int.tdiv a b)))
    ∧ (b ≠ 0 → (¬ i64Fits (Int.tdiv a b) = true ↔ (a = i64Min ∧ b = -1)))
    ∧ (valueRem (.int a) (.int b)
      = if b = 0 then .error (.remainderByZero (.int a))
        else if a = i64Min ∧ b = -1 then .error (.overflow opRem (.int a) (.int b))
        else .ok (.int (Int.tmod a b))) := by
  rw [i64Fits_iff] at ha hb
  refine ⟨?_, ?_, ?_, ?_, ?_, ?_⟩
  · by_cases h : i64Fits (a + b) = true <;>
      simp [valueAdd, checkedAdd, h]
  · by_cases h : i64Fits (a - b) = true <;>
      simp [valueSub, checkedSub, h]
  · by_cases h : i64Fits (a * b) = true <;>
      simp [valueMul, checkedMul, h]
  · by_cases h0 : b = 0
    · simp [valueDiv, h0]
    · by_cases he : a = i64Min ∧ b = -1 <;>
        simp [valueDiv, checkedDiv, h0, he]
  · intro h0
    rw [tdiv_fits_iff ha hb h0]
    exact not_not
  · by_cases h0 : b = 0
    · simp [valueRem, h0]
    · by_cases he : a = i64Min ∧ b = -1 <;>
        simp [valueRem, checkedRem, h0, he]

/-- Witness for C5: concrete checks at `7 + 3`, `MAX + 1`, `1 / 0` and
`MIN / -1` through the claim theorem. -/
theorem c5_checked_int_arithmetic_witness :
    valueAdd (.int 7) (.int 3) = .ok (.int 10)
    ∧ valueAdd (.int i64Max) (.int 1)
        = .error (.overflow opAdd (.int i64Max) (.int 1))
    ∧ valueDiv (.int 1) (.int 0) = .error (.divisionByZero (.int 1))
    ∧ valueDiv (.int i64Min) (.int (-1))
        = .error (.overflow opDiv (.int i64Min) (.int (-1))) := by
  refine ⟨?_, ?_, ?_, ?_⟩
  · have h := (c5_checked_int_arithmetic 7 3 (by decide) (by decide)).1
    simpa using h
  · have h := (c5_checked_int_arithmetic i64Max 1 (by decide) (by decide)).1
    rw [if_neg (by decide)] at h
    exact h
  · have h := (c5_checked_int_arithmetic 1 0 (by decide) (by decide)).2.2.2.1
    simpa using h
  · have h := (c5_checked_int_arithmetic i64Min (-1) (by decide) (by decide)).2.2.2.1
    rw [if_neg (by decide), if_pos (by exact ⟨rfl, rfl⟩)] at h
    exact h

/-! ## C6 -/

lemma entLookup_ne_none_of_mem {k : Key} {v : Value} {es : List (Key × Value)}
    (h : (k, v) ∈ es) : entLookup k es ≠ Option.none := by
  induction es with
  | nil => simp at h
  | cons e rest ih =>
    rcases List.mem_cons.mp h with heq | hmem
    · rw [← heq]
      simp [entLookup]
    · by_cases hk : e.1 = k <;> simp [entLookup, hk]
      exact ih hmem

lemma keyAbsent_lookup {k : Key} {es : List (Key × Value)}
    (h : keyAbsent k es = true) : entLookup k es = Option.none := by
  induction es with
  | nil => rfl
  | cons e rest ih =>
    by_cases hk : e.1 = k
    · simp [keyAbsent, hk] at h
    · simp only [keyAbsent, if_neg hk] at h
      simpa [entLookup, hk] using ih h

/-- In a well-formed (duplicate-free) entry list, every entry is found by its
own key. -/
lemma wfEntries_lookup {es : List (Key × Value)} (h : wfEntries es = true) :
    ∀ ekv ∈ es, entLookup ekv.1 es = Option.some ekv.2 := by
  induction es with
  | nil => simp
  | cons e rest ih =>
    obtain ⟨k, v⟩ := e
    simp only [wfEntries, Bool.and_eq_true] at h
    obtain ⟨⟨hka, hwv⟩, hrest⟩ := h
    rintro ⟨k1, v1⟩ hmem
    rcases List.mem_cons.mp hmem with heq | hmem2
    · obtain ⟨rfl, rfl⟩ := Prod.mk.injEq _ _ _ _ |>.mp heq
      simp [entLookup]
    · by_cases hk : k = k1
      · subst hk
        exact absurd (keyAbsent_lookup hka) (entLookup_ne_none_of_mem hmem2)
      · simpa [entLookup, hk] using ih hrest (k1, v1) hmem2

/-- Sufficient condition for the one-sided map inclusion of `valueEq`: every
left entry is found by its key and its value is self-equal. -/
lemma entriesSub_of_forall {xs es : List (Key × Value)}
    (h : ∀ e ∈ xs, entLookup e.1 es = Option.some e.2 ∧ valueEq e.2 e.2 = true) :
    entriesSub xs es = true := by
  induction xs with
  | nil => rfl
  | cons e rest ih =>
    obtain ⟨k, v⟩ := e
    have h1 := h (k, v) (List.mem_cons_self _ _)
    simp only [entriesSub]
    rw [h1.1]
    simp only [Bool.and_eq_true]
    exact ⟨h1.2, ih (fun e he => h e (List.mem_cons_of_mem _ he))⟩

mutual

/-- Reflexivity of the source `PartialEq for Value` for every NaN-free,
well-formed value. -/
theorem valueEq_refl : ∀ (v : Value), nanFree v = true → wfValue v = true →
    valueEq v v = true
  | .list xs => fun h1 h2 => by
    simpa [valueEq] using
      listEq_refl xs (by simpa [nanFree] using h1) (by simpa [wfValue] using h2)
  | .map es => fun h1 h2 => by
    have h1e : nanFreeEntries es = true := by simpa [nanFree] using h1
    have h2e : wfEntries es = true := by simpa [wfValue] using h2
    have hsub : entriesSub es es = true :=
      entriesSub_of_forall (fun e he =>
        ⟨wfEntries_lookup h2e e he, entriesVal_refl es h1e h2e e he⟩)
    simp [valueEq, hsub]
  | .function nm (Option.some r) => fun h1 h2 => by
    have hr := valueEq_refl r (by simpa [nanFree] using h1) (by simpa [wfValue] using h2)
    simp [valueEq, optValueEq, hr]
  | .function nm Option.none => fun _ _ => by simp [valueEq, optValueEq]
  | .int a => fun _ _ => by simp [valueEq]
  | .float (.num q) => fun _ _ => by simp [valueEq, f64Eq]
  | .float .nan => fun h1 _ => by simp [nanFree] at h1
  | .string a => fun _ _ => by simp [valueEq]
  | .bytes a => fun _ _ => by simp [valueEq]
  | .bool a => fun _ _ => by simp [valueEq]
  | .null => fun _ _ => rfl
termination_by structural v => v

/-- List case of `valueEq_refl`. -/
theorem listEq_refl : ∀ (xs : List Value), nanFreeList xs = true → wfList xs = true →
    listEq xs xs = true
  | [] => fun _ _ => rfl
  | x :: rest => fun h1 h2 => by
    simp only [nanFreeList, Bool.and_eq_true] at h1
    simp only [wfList, Bool.and_eq_true] at h2
    simp [listEq, valueEq_refl x h1.1 h2.1, listEq_refl rest h1.2 h2.2]
termination_by structural xs => xs

/-- Entry case of `valueEq_refl`: every map value is self-equal. -/
theorem entriesVal_refl : ∀ (es : List (Key × Value)), nanFreeEntries es = true →
    wfEntries es = true → ∀ ekv ∈ es, valueEq ekv.2 ekv.2 = true
  | [] => by simp
  | (k, v) :: rest => fun h1 h2 => by
    simp only [nanFreeEntries, Bool.and_eq_true] at h1
    simp only [wfEntries, Bool.and_eq_true] at h2
    rintro ⟨k1, v1⟩ hmem
    rcases List.mem_cons.mp hmem with heq | hmem2
    · have hv : v1 = v := (Prod.mk.injEq _ _ _ _ |>.mp heq).2
      rw [hv]
      exact valueEq_refl v h1.1 h2.1.2
    · exact entriesVal_refl rest h1.2 h2.2 (k1, v1) hmem2
termination_by structural es => es

end

/-- C6: counterexample to the claim as stated.  The list value `[Float(NaN)]`
is not equal to itself (list equality is elementwise and `NaN != NaN`), yet
it is not the value `Float(NaN)` — so reflexivity fails for more values than
the claimed single exception. -/
theorem c6_nan_inside_list_counterexample :
    valueEq (Value.list [Value.float F64.nan]) (Value.list [Value.float F64.nan]) = false
    ∧ (Value.list [Value.float F64.nan] = Value.float F64.nan → False) :=
  ⟨rfl, fun h => Value.noConfusion h⟩

/-- C6 (amended): equality is reflexive for every well-formed value containing
no `Float(NaN)` anywhere (the value `Float(NaN)` itself, and any list, map or
function receiver containing a NaN, are the exceptions); `Int(a) == Float(b)`
compares `a as f64` against `b` and symmetrically; and equality between
unrelated variants (any cross-kind pair other than `{Int, Float}`) is
`false` — a total boolean, never an error. -/
theorem c6_reflexivity_and_cross_kind :
    (∀ v : Value, nanFree v = true → wfValue v = true → valueEq v v = true)
    ∧ (∀ (i : Int) (f : F64),
        valueEq (.int i) (.float f) = f64Eq (intAsF64 i) f
        ∧ valueEq (.float f) (.int i) = f64Eq f (intAsF64 i))
    ∧ (∀ v w : Value, typeOf v ≠ typeOf w →
        ¬(typeOf v = ValueType.int ∧ typeOf w = ValueType.float) →
        ¬(typeOf v = ValueType.float ∧ typeOf w = ValueType.int) →
        valueEq v w = false) := by
  refine ⟨valueEq_refl, fun i f => ⟨rfl, rfl⟩, ?_⟩
  intro v w hne hif hfi
  cases v <;> cases w <;> simp_all [valueEq, typeOf]

/-- Witness for C6: reflexivity at the NaN-free value `[{true: 1}]`, and
cross-kind inequality at `Int(1)` versus `String("a")`. -/
theorem c6_reflexivity_and_cross_kind_witness :
    valueEq (Value.list [Value.map [(Key.bool true, Value.int 1)]])
        (Value.list [Value.map [(Key.bool true, Value.int 1)]]) = true
    ∧ valueEq (Value.int 1) (Value.string ("a")) = false := by
  constructor
  · exact c6_reflexivity_and_cross_kind.1
      (Value.list [Value.map [(Key.bool true, Value.int 1)]]) rfl rfl
  · exact c6_reflexivity_and_cross_kind.2.2 (Value.int 1) (Value.string ("a"))
      (by simp [typeOf]) (by simp [typeOf]) (by simp [typeOf])

/-! ## C9 -/

/-- C9: confirmed.  Indexing a list with a negative `Int` index casts the
index to `usize` (wrapping to at least `2^63`, beyond any Rust collection
length), so out-of-range list access yields `Null` rather than an error;
likewise `s[i]` on a string with a negative index yields `Null`. -/
theorem c9_negative_index_yields_null (n i : Nat) (a b : IdedExpr) (ctx : Ctx)
    (items : List Value) (s : String) (idx : Int)
    (hneg : idx < 0) (hfit : i64Fits idx = true) :
    (resolve n a ctx = .ok (.list items) → resolve n b ctx = .ok (.int idx) →
      items.length < 2 ^ 63 →
      resolve (n + 1) (.mk i (.call Option.none operators.INDEX [a, b])) ctx = .ok .null)
    ∧ (resolve n a ctx = .ok (.string s) → resolve n b ctx = .ok (.int idx) →
      s.length < 2 ^ 63 →
      resolve (n + 1) (.mk i (.call Option.none operators.INDEX [a, b])) ctx = .ok .null) := by
  rw [i64Fits_iff] at hfit
  have hbig : 2 ^ 63 ≤ usizeOfI64 idx := usizeOfI64_neg_large hfit.1 hneg
  constructor
  · intro h1 h2 hlen
    rw [resolve_index_call, h1, h2]
    simp only [bindO, indexOp]
    simp [listIndex, List.getElem?_eq_none (by omega : items.length ≤ usizeOfI64 idx)]
  · intro h1 h2 hlen
    rw [resolve_index_call, h1, h2]
    simp only [bindO, indexOp]
    have hnm : idx ≠ i64Max := by
      rw [i64Max_def]; omega
    rw [if_neg hnm]
    have hrange : strGetRange s (usizeOfI64 idx) (usizeOfI64 (idx + 1)) = Option.none := by
      rw [strGetRange, if_neg]
      rintro ⟨hle, hlen2⟩
      rcases eq_or_lt_of_le (show idx ≤ -1 by omega) with heq | hlt
      · -- idx = -1: start is 2^64 - 1 but stop is 0
        have : usizeOfI64 idx = 2 ^ 64 - 1 := by
          simp only [usizeOfI64]
          omega
        have hz : usizeOfI64 (idx + 1) = 0 := by
          simp only [usizeOfI64]
          omega
        omega
      · -- idx ≤ -2: stop also wraps to at least 2^63, beyond the length
        have : 2 ^ 63 ≤ usizeOfI64 (idx + 1) := by
          apply usizeOfI64_neg_large _ (by omega)
          rw [i64Min_def]
          rw [i64Min_def] at hfit
          omega
        omega
    rw [hrange]

/-- Witness for C9: `xs[-1]` on `xs = [Int 1]` and `s[-2]` on `s = "ab"`
both yield `Null`. -/
theorem c9_negative_index_yields_null_witness :
    resolve 2 (.mk 0 (.call Option.none operators.INDEX
        [.mk 1 (.ident ("xs")), .mk 2 (.literal (.int (-1)))]))
      [[(("xs"), Value.list [Value.int 1])]] = .ok .null
    ∧ resolve 2 (.mk 0 (.call Option.none operators.INDEX
        [.mk 1 (.ident ("s")), .mk 2 (.literal (.int (-2)))]))
      [[(("s"), Value.string ("ab"))]] = .ok .null := by
  constructor
  · exact (c9_negative_index_yields_null 1 0 _ _ _ [Value.int 1] ("") (-1)
      (by decide) (by decide)).1 rfl rfl (by decide)
  · exact (c9_negative_index_yields_null 1 0 _ _ _ [] ("ab") (-2)
      (by decide) (by decide)).2 rfl rfl (by decide)

/-! ## C8 -/

lemma getVariable_addVariable_self (ctx : Ctx) (name : String) (v : Value) :
    getVariable (addVariable ctx name v) name = .ok v := by
  cases ctx <;> simp [addVariable, getVariable, scopeLookup]

lemma getVariable_addVariable_ne (ctx : Ctx) (name other : String) (v : Value)
    (h : other ≠ name) :
    getVariable (addVariable ctx other v) name = getVariable ctx name := by
  cases ctx <;> simp [addVariable, getVariable, scopeLookup, h]

/-- Resolving the lowered `@result + [v]` step of the `map`/`filter`
comprehension: with `@result` bound to a list `acc` and the iteration
variable freshly bound to `item`, the step yields `acc ++ [item]`. -/
lemma c8_add_step (n : Nat) (v : String) (hv : v ≠ ("@result")) (i2 i3 i4 j : Nat)
    (acc : List Value) (item : Value) (ctx1 : Ctx)
    (hacc : getVariable ctx1 ("@result") = .ok (.list acc)) :
    resolve (n + 3) (.mk i4 (.call Option.none operators.ADD
        [.mk i2 (.ident ("@result")), .mk i3 (.listE [.mk j (.ident v)])]))
      (addVariable ctx1 v item) = .ok (.list (acc ++ [item])) := by
  rw [show n + 3 = (n + 2) + 1 from rfl, resolve_add]
  have h1 : resolve (n + 2) (.mk i2 (.ident ("@result"))) (addVariable ctx1 v item)
      = .ok (.list acc) := by
    simp [resolve, ofResult, getVariable_addVariable_ne _ _ _ _ hv, hacc]
  have h2 : resolve (n + 2) (.mk i3 (.listE [.mk j (.ident v)])) (addVariable ctx1 v item)
      = .ok (.list [item]) := by
    simp [resolve, evalElems, ofResult, getVariable_addVariable_self]
  rw [h1]
  simp [bindO, h2, valueAdd, ofResult]

/-- Loop invariant for the lowered `map(v, v)` comprehension: starting from
`@result = acc`, the loop terminates normally with `@result = acc ++ items`. -/
lemma c8_map_loop (n : Nat) (v : String) (hv : v ≠ ("@result")) (i1 i2 i3 i4 j : Nat) :
    ∀ (items acc : List Value) (ctx1 : Ctx),
      getVariable ctx1 ("@result") = .ok (.list acc) →
      ∃ ctxF,
        comprehensionLoop (fun e c => resolve (n + 3) e c)
          (.mk i1 (.literal (.boolean true)))
          (.mk i4 (.call Option.none operators.ADD
            [.mk i2 (.ident ("@result")), .mk i3 (.listE [.mk j (.ident v)])]))
          v ("@result") items ctx1 = .ok ctxF
        ∧ getVariable ctxF ("@result") = .ok (.list (acc ++ items))
  | [], acc, ctx1, hacc => ⟨ctx1, rfl, by simpa using hacc⟩
  | item :: rest, acc, ctx1, hacc => by
    have hcond : resolve (n + 3) (.mk i1 (.literal (.boolean true))) ctx1
        = .ok (.bool true) := by
      simp [resolve, celValToValue]
    have hstep := c8_add_step n v hv i2 i3 i4 j acc item ctx1 hacc
    obtain ⟨ctxF, hloop, hres⟩ := c8_map_loop n v hv i1 i2 i3 i4 j rest (acc ++ [item])
      (addVariable (addVariable ctx1 v item) ("@result") (.list (acc ++ [item])))
      (getVariable_addVariable_self _ _ _)
    refine ⟨ctxF, ?_, by simpa using hres⟩
    simp only [comprehensionLoop, hcond, hstep, toBool]
    exact hloop

/-- Loop invariant for the lowered `filter(v, true)` comprehension: the
predicate is the literal `true`, so every element is appended. -/
lemma c8_filter_loop (n : Nat) (v : String) (hv : v ≠ ("@result"))
    (i0 i1 i2 i3 i4 i5 i6 : Nat) (j : Nat) :
    ∀ (items acc : List Value) (ctx1 : Ctx),
      getVariable ctx1 ("@result") = .ok (.list acc) →
      ∃ ctxF,
        comprehensionLoop (fun e c => resolve (n + 4) e c)
          (.mk i1 (.literal (.boolean true)))
          (.mk i6 (.call Option.none operators.CONDITIONAL
            [.mk i0 (.literal (.boolean true)),
             .mk i4 (.call Option.none operators.ADD
               [.mk i2 (.ident ("@result")), .mk i3 (.listE [.mk j (.ident v)])]),
             .mk i5 (.ident ("@result"))]))
          v ("@result") items ctx1 = .ok ctxF
        ∧ getVariable ctxF ("@result") = .ok (.list (acc ++ items))
  | [], acc, ctx1, hacc => ⟨ctx1, rfl, by simpa using hacc⟩
  | item :: rest, acc, ctx1, hacc => by
    have hcond : resolve (n + 4) (.mk i1 (.literal (.boolean true))) ctx1
        = .ok (.bool true) := by
      simp [resolve, celValToValue]
    have hstep : resolve (n + 4) (.mk i6 (.call Option.none operators.CONDITIONAL
        [.mk i0 (.literal (.boolean true)),
         .mk i4 (.call Option.none operators.ADD
           [.mk i2 (.ident ("@result")), .mk i3 (.listE [.mk j (.ident v)])]),
         .mk i5 (.ident ("@result"))]))
        (addVariable ctx1 v item) = .ok (.list (acc ++ [item])) := by
      rw [show n + 4 = (n + 3) + 1 from rfl, resolve_conditional]
      have hc : resolve (n + 3) (.mk i0 (.literal (.boolean true)))
          (addVariable ctx1 v item) = .ok (.bool true) := by
        simp [resolve, celValToValue]
      rw [hc]
      simpa [bindO, toBool] using c8_add_step n v hv i2 i3 i4 j acc item ctx1 hacc
    obtain ⟨ctxF, hloop, hres⟩ := c8_filter_loop n v hv i0 i1 i2 i3 i4 i5 i6 j rest
      (acc ++ [item])
      (addVariable (addVariable ctx1 v item) ("@result") (.list (acc ++ [item])))
      (getVariable_addVariable_self _ _ _)
    refine ⟨ctxF, ?_, by simpa using hres⟩
    simp only [comprehensionLoop, hcond, hstep, toBool]
    exact hloop

/-- C8: confirmed.  For every list value that the target expression resolves
to, the macro-lowered `t.map(v, v)` evaluates to that same list, and the
macro-lowered `t.filter(v, true)` evaluates to that same list (identity laws
of the `map`/`filter` lowerings composed with comprehension evaluation).
The iteration variable must differ from the reserved accumulator `@result`
(the parser never produces it: `@` is not a legal identifier start). -/
theorem c8_map_filter_identity (n c i0 i1 : Nat) (t : IdedExpr) (ctx : Ctx)
    (items : List Value) (v : String) (hv : v ≠ ("@result"))
    (ht : resolve (n + 4) t ctx = .ok (.list items)) :
    Except.map (fun p => resolve (n + 5) p.1 ctx)
        (mapExpander c t (.mk i0 (.ident v)) (.mk i1 (.ident v)))
      = Except.ok (.ok (.list items))
    ∧ Except.map (fun p => resolve (n + 5) p.1 ctx)
        (filterExpander c t (.mk i0 (.ident v)) (.mk i1 (.literal (.boolean true))))
      = Except.ok (.ok (.list items)) := by
  have hinit : ∀ k, resolve (n + 4) (.mk k (.listE [])) ctx = .ok (.list []) := by
    intro k
    simp [resolve, evalElems]
  constructor
  · simp only [mapExpander, extractIdent, nextExpr, Except.map]
    rw [show n + 5 = (n + 4) + 1 from rfl,
      resolve_comprehension_list (n + 4) (c + 6) t v Option.none ("@result")
        _ _ _ _ ctx (.list []) items (hinit c) ht]
    obtain ⟨ctxF, hloop, hres⟩ := c8_map_loop (n + 1) v hv (c + 1) (c + 2) (c + 3) (c + 4)
      i1 items [] (addVariable (newInnerScope ctx) ("@result") (.list []))
      (getVariable_addVariable_self _ _ _)
    rw [hloop]
    simp [resolve, ofResult, hres]
  · simp only [filterExpander, extractIdent, nextExpr, Except.map]
    rw [show n + 5 = (n + 4) + 1 from rfl,
      resolve_comprehension_list (n + 4) (c + 8) t v Option.none ("@result")
        _ _ _ _ ctx (.list []) items (hinit c) ht]
    obtain ⟨ctxF, hloop, hres⟩ := c8_filter_loop n v hv i1 (c + 1) (c + 2) (c + 3) (c + 4)
      (c + 5) (c + 6) i0 items [] (addVariable (newInnerScope ctx) ("@result") (.list []))
      (getVariable_addVariable_self _ _ _)
    rw [hloop]
    simp [resolve, ofResult, hres]

/-- Witness for C8: `xs.map(x, x)` and `xs.filter(x, true)` on
`xs = [Int 1, Int 2]` both return `[Int 1, Int 2]`. -/
theorem c8_map_filter_identity_witness :
    Except.map (fun p => resolve 5 p.1 [[(("xs"), Value.list [Value.int 1, Value.int 2])]])
        (mapExpander 0 (.mk 90 (.ident ("xs"))) (.mk 91 (.ident ("x")))
          (.mk 92 (.ident ("x"))))
      = Except.ok (.ok (.list [Value.int 1, Value.int 2]))
    ∧ Except.map (fun p => resolve 5 p.1 [[(("xs"), Value.list [Value.int 1, Value.int 2])]])
        (filterExpander 0 (.mk 90 (.ident ("xs"))) (.mk 91 (.ident ("x")))
          (.mk 92 (.literal (.boolean true))))
      = Except.ok (.ok (.list [Value.int 1, Value.int 2])) :=
  c8_map_filter_identity 0 0 91 92 (.mk 90 (.ident ("xs")))
    [[(("xs"), Value.list [Value.int 1, Value.int 2])]]
    [Value.int 1, Value.int 2] ("x") (by decide) rfl

/-! ## C10 -/

/-- C10: confirmed.  `max()`/`min()` with zero arguments, or with a single
empty-list argument, return `Null` (the fold starts from
`first().unwrap_or(Null)` over an empty iterator); on a non-empty sequence
the fold returns `ValuesNotComparable` carrying the running extremum and the
offending element whenever the two have no defined partial order. -/
theorem c10_max_min_empty_and_incomparable :
    maxFn [] = .ok Value.null
    ∧ maxFn [Value.list []] = .ok Value.null
    ∧ minFn [] = .ok Value.null
    ∧ minFn [Value.list []] = .ok Value.null
    ∧ (∀ acc x rest, valueCmp acc x = Option.none →
        maxFold acc (x :: rest) = .error (.valuesNotComparable acc x)
        ∧ minFold acc (x :: rest) = .error (.valuesNotComparable acc x)) := by
  refine ⟨rfl, rfl, rfl, rfl, fun acc x rest h => ⟨?_, ?_⟩⟩
  · simp [maxFold, h]
  · simp [minFold, h]

/-- Witness for C10: the fold step at the incomparable pair
`("a", Int 1)`. -/
theorem c10_max_min_empty_and_incomparable_witness :
    maxFold (Value.string ("a")) [Value.int 1]
      = .error (.valuesNotComparable (Value.string ("a")) (Value.int 1))
    ∧ minFold (Value.string ("a")) [Value.int 1]
      = .error (.valuesNotComparable (Value.string ("a")) (Value.int 1)) :=
  c10_max_min_empty_and_incomparable.2.2.2.2 (Value.string ("a")) (Value.int 1) [] rfl

end Bel


